import Mathlib

/-!
# pet-places: the HTTP entry layer and the persistence layer

A shallow embedding of `backend/main.go` and `db.go`.

* Go strings are byte sequences; the embedding keeps them as Lean strings (the
  decoded text) and measures them with `len`, the number of bytes of their
  UTF-8 encoding, which is what the Go builtin `len` returns.
* A Go `error` is an `Option String`: `none` is `nil`, `some m` is an error
  whose `Error()` text is `m`.
* `*sql.DB` is a value of type `DB` that every persistence function takes and
  returns.
* `http.ResponseWriter` is a value of type `ResponseWriter` that handlers
  transform.
-/

namespace PetPlaces

/-! ## Go strings -/

/-- UTF-8 encoding of one code point, as a list of byte values. -/
def utf8Encode (c : Nat) : List Nat :=
  if c < 0x80 then [c]
  else if c < 0x800 then [0xC0 + c / 64, 0x80 + c % 64]
  else if c < 0x10000 then [0xE0 + c / 4096, 0x80 + (c / 64) % 64, 0x80 + c % 64]
  else [0xF0 + c / 262144, 0x80 + (c / 4096) % 64, 0x80 + (c / 64) % 64, 0x80 + c % 64]

/-- The bytes of a Go string holding the text `s`. -/
def goBytes (s : String) : List Nat :=
  s.data.flatMap (fun c => utf8Encode c.toNat)

/-- Go builtin `len` on a string: the number of bytes. -/
def len (s : String) : Nat :=
  (goBytes s).length

/-- Number of characters (code points) of a string. -/
def runeCount (s : String) : Nat :=
  s.data.length

/-! ## Data model (main.go, lines 15-21) -/

/-- The `Place` struct. -/
structure Place where
  ID : Int
  Name : String
  Address : String
  Description : String
  deriving DecidableEq, Repr

/-- The zero value of `Place`, what `var place Place` declares. -/
def Place.zero : Place :=
  { ID := 0, Name := "", Address := "", Description := "" }

/-! ## Validation (main.go, lines 89-107) -/

/-- The function `validatePlace`: the error of the first failing rule, or `nil`. -/
def validatePlace (place : Place) : Option String :=
  if place.Name = "" then
    some "name is required"
  else if len place.Name > 100 then
    some "name cannot exceed 100 characters"
  else if place.Address = "" then
    some "address is required"
  else if len place.Address > 200 then
    some "address cannot exceed 200 characters"
  else if len place.Description > 500 then
    some "description cannot exceed 500 characters"
  else
    none

/-! ## strconv.Atoi

The handlers read the path id with `strconv.Atoi`. The model follows
`strconv.ParseInt(s, 10, 0)` on a 64-bit platform, whose results `Atoi`
returns (its fast path for short inputs computes the same values). -/

/-- The two failures of `strconv`: `ErrSyntax` and `ErrRange`. -/
inductive NumError where
  | invalid
  | range
  deriving DecidableEq, Repr

/-- The digit loop of `strconv.ParseUint` in base 10 with 64 bits: a byte that
is not a decimal digit is a syntax failure with value 0; an overflow is a range
failure with the largest value, reported at the digit where it happens. -/
def parseUintLoop : List Nat → Nat → Nat × Option NumError
  | [], n => (n, none)
  | c :: cs, n =>
    if c < 48 ∨ 57 < c then (0, some NumError.invalid)
    else if 1844674407370955162 ≤ n then (18446744073709551615, some NumError.range)
    else if 18446744073709551615 < n * 10 + (c - 48) then
      (18446744073709551615, some NumError.range)
    else parseUintLoop cs (n * 10 + (c - 48))

/-- The function `strconv.ParseUint(s, 10, 64)`. -/
def ParseUint (s : List Nat) : Nat × Option NumError :=
  if s = [] then (0, some NumError.invalid) else parseUintLoop s 0

/-- The function `strconv.ParseInt(s, 10, 0)` with 64-bit `int`. -/
def ParseInt (s : List Nat) : Int × Option NumError :=
  match s with
  | [] => (0, some NumError.invalid)
  | c :: rest =>
    let neg : Bool := c = 45
    let digits := if c = 43 ∨ c = 45 then rest else s
    let un := ParseUint digits
    if un.2 = some NumError.invalid then (0, un.2)
    else if neg = false ∧ 9223372036854775808 ≤ un.1 then
      (9223372036854775807, some NumError.range)
    else if neg = true ∧ 9223372036854775808 < un.1 then
      (-9223372036854775808, some NumError.range)
    else (if neg then -(un.1 : Int) else (un.1 : Int), none)

/-- The function `strconv.Atoi` on the bytes of a Go string: value and error. -/
def Atoi (s : List Nat) : Int × Option NumError :=
  ParseInt s

/-! ## encoding/json, output side

`json.Marshal` of a `Place`, of a `*Place` and of a `[]Place`. It cannot fail on
these types, so the error branches after `json.Marshal` in the handlers are
dead and do not appear in the embedding. -/

/-- Lower-case hexadecimal digit. -/
def hexDigit (n : Nat) : Char :=
  "0123456789abcdef".data.getD n (Char.ofNat 48)

/-- How `json.Marshal` writes one character of a string (HTML escaping on). -/
def jsonEscapeChar (c : Char) : List Char :=
  let n := c.toNat
  if n = 34 ∨ n = 92 then [Char.ofNat 92, c]
  else if n = 8 then [Char.ofNat 92, Char.ofNat 98]
  else if n = 12 then [Char.ofNat 92, Char.ofNat 102]
  else if n = 10 then [Char.ofNat 92, Char.ofNat 110]
  else if n = 13 then [Char.ofNat 92, Char.ofNat 114]
  else if n = 9 then [Char.ofNat 92, Char.ofNat 116]
  else if n < 32 ∨ n = 60 ∨ n = 62 ∨ n = 38 then
    [Char.ofNat 92, Char.ofNat 117, Char.ofNat 48, Char.ofNat 48, hexDigit (n / 16), hexDigit (n % 16)]
  else if n = 0x2028 ∨ n = 0x2029 then
    [Char.ofNat 92, Char.ofNat 117, Char.ofNat 50, Char.ofNat 48, Char.ofNat 50, hexDigit (n % 16)]
  else [c]

/-- A Go string as a JSON string literal. -/
def jsonString (s : String) : String :=
  "\"" ++ String.mk (s.data.flatMap jsonEscapeChar) ++ "\""

/-- The call `json.Marshal(place)` for a `Place` value: the four tagged fields in
declaration order. -/
def jsonMarshalPlace (p : Place) : String :=
  "\x7b\"id\":" ++ toString p.ID ++ ",\"name\":" ++ jsonString p.Name
    ++ ",\"address\":" ++ jsonString p.Address
    ++ ",\"description\":" ++ jsonString p.Description ++ "\x7d"

/-- The call `json.Marshal(place)` for a `*Place`: a nil pointer encodes as `null`. -/
def jsonMarshalPlacePtr (p : Option Place) : String :=
  match p with
  | none => "null"
  | some place => jsonMarshalPlace place

/-- The call `json.Marshal(places)` for a `[]Place`: a nil slice encodes as `null`,
any other slice as an array. -/
def jsonMarshalPlaces (places : Option (List Place)) : String :=
  match places with
  | none => "null"
  | some ps => "[" ++ String.intercalate "," (ps.map jsonMarshalPlace) ++ "]"

/-! ## net/http: the response writer -/

/-- State of an `http.ResponseWriter`. -/
structure ResponseWriter where
  /-- The `Content-Type` entry of the header map. -/
  contentType : Option String
  /-- The status code, once the header has been written. -/
  code : Option Nat
  /-- The `Content-Type` entry the handler had set when the header was written. A
  value `some t` goes out as it is; with `none` the handler set no type and
  net/http sends one it detects from the first bytes of the body, which the
  model does not compute. -/
  declaredContentType : Option String
  /-- The bytes written so far. -/
  body : String
  deriving DecidableEq, Repr

/-- A response writer nothing has been written to. -/
def ResponseWriter.fresh : ResponseWriter :=
  { contentType := none, code := none, declaredContentType := none, body := "" }

/-- The method `WriteHeader`: the first call fixes the status and the headers, later
calls change nothing. -/
def ResponseWriter.WriteHeader (w : ResponseWriter) (code : Nat) : ResponseWriter :=
  match w.code with
  | some _ => w
  | none => { w with code := some code, declaredContentType := w.contentType }

/-- The method `Write`: writes the header with 200 if none was written, then appends. -/
def ResponseWriter.Write (w : ResponseWriter) (b : String) : ResponseWriter :=
  let w1 := w.WriteHeader 200
  { w1 with body := w1.body ++ b }

/-- The function `http.Error`: plain-text content type, the status, and the message
followed by a newline. -/
def httpError (w : ResponseWriter) (error : String) (code : Nat) : ResponseWriter :=
  let w1 := { w with contentType := some "text/plain; charset=utf-8" }
  let w2 := w1.WriteHeader code
  { w2 with body := w2.body ++ error ++ "\n" }

/-- The status the client receives: 200 when the handler never wrote a header. -/
def ResponseWriter.status (w : ResponseWriter) : Nat :=
  w.code.getD 200

/-- The constant `http.StatusOK`. -/
def StatusOK : Nat := 200
/-- The constant `http.StatusCreated`. -/
def StatusCreated : Nat := 201
/-- The constant `http.StatusNoContent`. -/
def StatusNoContent : Nat := 204
/-- The constant `http.StatusBadRequest`. -/
def StatusBadRequest : Nat := 400
/-- The constant `http.StatusNotFound`. -/
def StatusNotFound : Nat := 404
/-- The constant `http.StatusMethodNotAllowed`. -/
def StatusMethodNotAllowed : Nat := 405
/-- The constant `http.StatusInternalServerError`. -/
def StatusInternalServerError : Nat := 500

/-! ## net/http: the request -/

/-- The parts of an `*http.Request` the handlers read. -/
structure Request where
  /-- The request method. -/
  method : String
  /-- The field `r.URL.Path`, the decoded path. -/
  path : String
  /-- The result of `r.URL.EscapedPath()`, the path as it is on the wire. -/
  escapedPath : String
  /-- The decoded query parameters `r.URL.Query()`, in order of appearance. -/
  query : List (String × String)
  /-- The wildcard values the mux stored for the matched pattern, as bytes. -/
  pathValues : List (String × List Nat)
  /-- What `io.ReadAll(r.Body)` returns: the body, or a read error. -/
  body : Except String String

/-- The call `r.URL.Query().Get(key)`: the first value of the key, or the empty string. -/
def Request.queryGet (r : Request) (key : String) : String :=
  match r.query.find? (fun kv => kv.1 = key) with
  | some kv => kv.2
  | none => ""

/-- The call `r.PathValue(name)`: the bytes of the wildcard value, or of the empty
string. -/
def Request.PathValue (r : Request) (name : String) : List Nat :=
  match r.pathValues.find? (fun kv => kv.1 = name) with
  | some kv => kv.2
  | none => []

/-! ## The database behind `*sql.DB`

PostgreSQL and `database/sql` are outside the repository. The model keeps the
rows of the relations the statements of `db.go` name, and takes as given
whether the database fails the statement of the current request (field
`fault`): connection loss, a value too long for a column, a missing relation. -/

/-- The five statements `db.go` sends, with their bound arguments. -/
inductive Stmt where
  | selectLike (arg : String)
  | selectByID (id : Int)
  | insert (name address description : String)
  | update (name address description : String) (id : Int)
  | delete (id : Int)
  deriving DecidableEq, Repr

/-- The database state. -/
structure DB where
  /-- Rows of relation `places` (id, name, address, description), in scan order. -/
  places : List Place
  /-- Rows of relation `place`, the one the UPDATE statement names. -/
  place : List Place
  /-- Next value of the serial column of `places`. -/
  nextID : Int
  /-- The error the database returns for a statement, `none` when it executes. -/
  fault : Option String
  /-- The statements received so far, oldest first. -/
  log : List Stmt
  deriving DecidableEq, Repr

/-- Record that a statement reached the database. -/
def DB.received (db : DB) (st : Stmt) : DB :=
  { db with log := db.log ++ [st] }

/-- SQL `LOWER` on the letters A to Z. What it does to other letters depends on
the locale of the database. -/
def sqlLower (s : String) : String :=
  String.mk (s.data.map Char.toLower)

/-- Does some suffix of the text satisfy `f`? Used for the wildcard `%`. -/
def anySuffix (f : List Char → Bool) : List Char → Bool
  | [] => f []
  | c :: cs => f (c :: cs) || anySuffix f cs

/-- One element of a LIKE pattern. -/
inductive LikeToken where
  | anyRun
  | anyOne
  | lit (c : Char)
  deriving DecidableEq, Repr

/-- Reading a LIKE pattern: `%` stands for any run of characters, `_` for any one
character, and a backslash makes the next character literal (the flag says that
the previous character was such a backslash). A pattern ending in a lone
backslash is an error in PostgreSQL; the patterns built by `getPlacesDB` end in
`%`, so that case (no token here) does not arise. -/
def likeTokens : Bool → List Char → List LikeToken
  | _, [] => []
  | true, c :: cs => LikeToken.lit c :: likeTokens false cs
  | false, c :: cs =>
    if c = Char.ofNat 92 then likeTokens true cs
    else if c = Char.ofNat 37 then LikeToken.anyRun :: likeTokens false cs
    else if c = Char.ofNat 95 then LikeToken.anyOne :: likeTokens false cs
    else LikeToken.lit c :: likeTokens false cs

/-- SQL `LIKE`, pattern first: the whole text has to match the whole pattern. -/
def likeMatch : List LikeToken → List Char → Bool
  | [], t => t.isEmpty
  | LikeToken.anyRun :: ps, t => anySuffix (likeMatch ps) t
  | LikeToken.anyOne :: _, [] => false
  | LikeToken.anyOne :: ps, _ :: ts => likeMatch ps ts
  | LikeToken.lit _ :: _, [] => false
  | LikeToken.lit c :: ps, x :: ts => x = c && likeMatch ps ts

/-- The WHERE clause of `getPlacesDB`: `LOWER(name) LIKE '%' || $1 || '%'`. -/
def whereLike (arg : String) (row : Place) : Bool :=
  likeMatch (likeTokens false ("%" ++ arg ++ "%").data) (sqlLower row.Name).data

/-! ## Persistence layer (db.go) -/

/-- The method `getPlacesDB` (db.go, lines 45-63): the slice starts as the empty,
non-nil `[]Place{}` and receives every selected row in order; on a query error
the slice is nil. -/
def getPlacesDB (db : DB) (queryName : String) : (Option (List Place) × Option String) × DB :=
  let db1 := db.received (Stmt.selectLike queryName)
  match db.fault with
  | some err => ((none, some err), db1)
  | none =>
    let rows := db.places.filter (whereLike queryName)
    ((some (rows.foldl (fun places place => places ++ [place]) []), none), db1)

/-- The method `getPlaceDB` (db.go, lines 65-72): any failure, the absence of a row
included, becomes the error `place not found` with a nil pointer. -/
def getPlaceDB (db : DB) (id : Int) : (Option Place × Option String) × DB :=
  let db1 := db.received (Stmt.selectByID id)
  match db.fault with
  | some _ => ((none, some "place not found"), db1)
  | none =>
    match db.places.find? (fun row => row.ID = id) with
    | none => ((none, some "place not found"), db1)
    | some row => ((some row, none), db1)

/-- The method `createPlaceDB` (db.go, lines 75-85): the new id, or 0 and the
wrapped error. -/
def createPlaceDB (db : DB) (place : Place) : (Int × Option String) × DB :=
  let db1 := db.received (Stmt.insert place.Name place.Address place.Description)
  match db.fault with
  | some err => ((0, some ("inserting place: " ++ err)), db1)
  | none =>
    let id := db.nextID
    let row : Place :=
      { ID := id, Name := place.Name, Address := place.Address, Description := place.Description }
    ((id, none), { db1 with places := db.places ++ [row], nextID := db.nextID + 1 })

/-- The method `updatePlaceDB` (db.go, lines 87-92): the statement names relation
`place`; the driver error is returned as it is. -/
def updatePlaceDB (db : DB) (place : Place) (id : Int) : Option String × DB :=
  let db1 := db.received (Stmt.update place.Name place.Address place.Description id)
  match db.fault with
  | some err => (some err, db1)
  | none =>
    let set := fun (row : Place) =>
      if row.ID = id then
        { row with Name := place.Name, Address := place.Address, Description := place.Description }
      else row
    (none, { db1 with place := db.place.map set })

/-- The method `deletePlaceDB` (db.go, lines 94-100): the driver error is returned as
it is; a statement that deletes no row is not an error. -/
def deletePlaceDB (db : DB) (id : Int) : Option String × DB :=
  let db1 := db.received (Stmt.delete id)
  match db.fault with
  | some err => (some err, db1)
  | none => (none, { db1 with places := db.places.filter (fun row => row.ID ≠ id) })

/-! ## Handlers (main.go)

`jsonUnmarshal body place` stands for `json.Unmarshal(body, &place)`: the
decoder is outside the repository and is a parameter of the two handlers that
call it. Output on standard output and to the logger is not part of the
response and is left out. -/

/-- The handler `getPlaces` (main.go, lines 109-126). -/
def getPlaces (db : DB) (w : ResponseWriter) (r : Request) : ResponseWriter × DB :=
  let nameQuery := r.queryGet "name"
  let res := getPlacesDB db nameQuery
  match res.1.2 with
  | some err => (httpError w err StatusInternalServerError, res.2)
  | none => (w.Write (jsonMarshalPlaces res.1.1), res.2)

/-- The handler `getPlace` (main.go, lines 128-145): neither error branch returns,
so the lookup and the final write always run. -/
def getPlace (db : DB) (w : ResponseWriter) (r : Request) : ResponseWriter × DB :=
  let parsed := Atoi (r.PathValue "id")
  let w1 := match parsed.2 with
    | some _ => httpError w "ID not found" StatusBadRequest
    | none => w
  let res := getPlaceDB db parsed.1
  let w2 := match res.1.2 with
    | some _ => httpError w1 "ID not found" StatusBadRequest
    | none => w1
  (w2.Write (jsonMarshalPlacePtr res.1.1), res.2)

/-- The handler `createPlace` (main.go, lines 147-181). -/
def createPlace (jsonUnmarshal : String → Place → Except String Place)
    (db : DB) (w : ResponseWriter) (r : Request) : ResponseWriter × DB :=
  match r.body with
  | Except.error err => (httpError w err StatusBadRequest, db)
  | Except.ok body =>
    match jsonUnmarshal body Place.zero with
    | Except.error err => (httpError w err StatusBadRequest, db)
    | Except.ok place =>
      match validatePlace place with
      | some err => (httpError w err StatusBadRequest, db)
      | none =>
        let res := createPlaceDB db place
        match res.1.2 with
        | some err => (httpError w err StatusInternalServerError, res.2)
        | none => (w.Write (jsonMarshalPlace { place with ID := res.1.1 }), res.2)

/-- The handler `updatePlace` (main.go, lines 183-217). The id is the path from byte
8 on, `len("/places/")`; a shorter path makes the slice expression panic
(`none`). Validation runs on the still zero-valued `updatedPlace`, before the
body is decoded into it. -/
def updatePlace (jsonUnmarshal : String → Place → Except String Place)
    (db : DB) (w : ResponseWriter) (r : Request) : Option (ResponseWriter × DB) :=
  if len r.path < len "/places/" then none
  else
    let idStr := (goBytes r.path).drop (len "/places/")
    let parsed := Atoi idStr
    match parsed.2 with
    | some _ => some (httpError w "ID not found" StatusBadRequest, db)
    | none =>
      let updatedPlace := Place.zero
      match r.body with
      | Except.error err => some (httpError w err StatusBadRequest, db)
      | Except.ok body =>
        match validatePlace updatedPlace with
        | some err => some (httpError w err StatusBadRequest, db)
        | none =>
          match jsonUnmarshal body updatedPlace with
          | Except.error err => some (httpError w err StatusBadRequest, db)
          | Except.ok decoded =>
            let res := updatePlaceDB db decoded parsed.1
            match res.1 with
            | some err => some (httpError w err StatusInternalServerError, res.2)
            | none => some (w.WriteHeader StatusNoContent, res.2)

/-- The handler `deletePlace` (main.go, lines 219-232). -/
def deletePlace (db : DB) (w : ResponseWriter) (r : Request) : ResponseWriter × DB :=
  let parsed := Atoi (r.PathValue "id")
  match parsed.2 with
  | some _ => (httpError w "ID not found" StatusBadRequest, db)
  | none =>
    let res := deletePlaceDB db parsed.1
    match res.1 with
    | some err => (httpError w err StatusInternalServerError, res.2)
    | none => (w.WriteHeader StatusNoContent, res.2)

/-! ## Routing (main.go, lines 69-76)

`http.ServeMux` with method-and-path patterns, as far as the five registered
patterns need it: a pattern method (GET also serves HEAD), literal segments and
a wildcard `{id}` for one segment. The lookup works on the escaped path: a
request other than CONNECT whose path is not in cleaned form is redirected to
the cleaned path, otherwise the path is cut into segments, each unescaped, and
matched. Patterns with a host, a trailing slash or a `...` wildcard do not occur
in `server.routes` and are not modelled, so the redirect that adds a trailing
slash never applies. The logging middleware around the list route calls the
handler and then logs; it does not touch the response and is left out. -/

/-- The five handlers a route can name. -/
inductive Handler where
  | getPlaces
  | createPlace
  | getPlace
  | updatePlace
  | deletePlace
  deriving DecidableEq, Repr

/-- One segment of a pattern. -/
inductive Segment where
  | lit (s : String)
  | wild (name : String)
  deriving DecidableEq, Repr

/-- A registered pattern and its handler. -/
structure Route where
  method : String
  segments : List Segment
  handler : Handler
  deriving DecidableEq, Repr

/-- The registrations of `server.routes`, in source order. -/
def routes : List Route :=
  [ { method := "GET", segments := [Segment.lit "v1", Segment.lit "places"],
      handler := Handler.getPlaces },
    { method := "POST", segments := [Segment.lit "v1", Segment.lit "places"],
      handler := Handler.createPlace },
    { method := "GET", segments := [Segment.lit "v1", Segment.lit "places", Segment.wild "id"],
      handler := Handler.getPlace },
    { method := "PUT", segments := [Segment.lit "v1", Segment.lit "places", Segment.wild "id"],
      handler := Handler.updatePlace },
    { method := "DELETE", segments := [Segment.lit "v1", Segment.lit "places", Segment.wild "id"],
      handler := Handler.deletePlace } ]

/-- Value of a hexadecimal digit byte. -/
def hexValue (b : Nat) : Option Nat :=
  if 48 ≤ b ∧ b ≤ 57 then some (b - 48)
  else if 97 ≤ b ∧ b ≤ 102 then some (b - 87)
  else if 65 ≤ b ∧ b ≤ 70 then some (b - 55)
  else none

/-- Where the percent-decoder stands: outside an escape, after the percent sign, or
after the first hexadecimal digit. -/
inductive EscapeState where
  | plain
  | percent
  | high (hi : Nat)
  deriving DecidableEq, Repr

/-- Percent-decoding as `url.PathUnescape` does it: every `%XY` with hexadecimal
digits becomes one byte; a percent sign not followed by two such digits is an
error (`none`). -/
def unescapeFrom : EscapeState → List Nat → Option (List Nat)
  | EscapeState.plain, [] => some []
  | EscapeState.percent, [] => none
  | EscapeState.high _, [] => none
  | EscapeState.plain, b :: bs =>
    if b = 37 then unescapeFrom EscapeState.percent bs
    else (unescapeFrom EscapeState.plain bs).map (fun out => b :: out)
  | EscapeState.percent, b :: bs =>
    match hexValue b with
    | none => none
    | some hi => unescapeFrom (EscapeState.high hi) bs
  | EscapeState.high hi, b :: bs =>
    match hexValue b with
    | none => none
    | some lo => (unescapeFrom EscapeState.plain bs).map (fun out => (16 * hi + lo) :: out)

/-- The helper `pathUnescape` of the mux: the decoded segment, or the segment itself
when it is not validly escaped. -/
def pathUnescape (seg : List Nat) : List Nat :=
  (unescapeFrom EscapeState.plain seg).getD seg

/-- Split a byte list at every slash. -/
def splitSlash : List Nat → List (List Nat)
  | [] => [[]]
  | b :: bs =>
    if b = 47 then [] :: splitSlash bs
    else
      match splitSlash bs with
      | [] => [[b]]
      | seg :: segs => (b :: seg) :: segs

/-- The element pass of `path.Clean` on a rooted path: empty and `.` elements are
dropped, `..` removes the element before it (or nothing at the root). The
second argument holds the elements kept so far, last first. -/
def cleanElements : List (List Nat) → List (List Nat) → List (List Nat)
  | [], kept => kept.reverse
  | seg :: rest, kept =>
    if seg = [] ∨ seg = [46] then cleanElements rest kept
    else if seg = [46, 46] then cleanElements rest (kept.drop 1)
    else cleanElements rest (seg :: kept)

/-- Join path elements behind a leading slash. -/
def joinRooted : List (List Nat) → List Nat
  | [] => [47]
  | [seg] => 47 :: seg
  | seg :: rest => 47 :: seg ++ joinRooted rest

/-- The function `cleanPath` of net/http: a leading slash is added if missing, the path
is cleaned with `path.Clean`, and a trailing slash is kept. -/
def cleanPath (path : List Nat) : List Nat :=
  if path = [] then [47]
  else
    let rooted := if path.head? = some 47 then path else 47 :: path
    let cleaned := joinRooted (cleanElements (splitSlash (rooted.drop 1)) [])
    if rooted.getLast? = some 47 ∧ cleaned ≠ [47] then cleaned ++ [47] else cleaned

/-- The helper `firstSegment` of the mux: the first segment, unescaped, and the rest of
the path; for the path `/` alone the segment is the slash itself. -/
def firstSegment (path : List Nat) : List Nat × List Nat :=
  if path = [47] then ([47], [])
  else
    ( pathUnescape ((path.drop 1).takeWhile (fun b => b ≠ 47)),
      (path.drop 1).dropWhile (fun b => b ≠ 47) )

/-- Match the segments of one pattern against a path, as `matchPath` walks the
routing tree: a literal has to equal the unescaped segment, a wildcard takes any
segment except the trailing slash, and pattern and path have to end together. -/
def matchPath : List Segment → List Nat → Option (List (String × List Nat))
  | [], path => if path = [] then some [] else none
  | Segment.lit s :: ps, path =>
    if path = [] then none
    else if (firstSegment path).1 = goBytes s then matchPath ps (firstSegment path).2
    else none
  | Segment.wild name :: ps, path =>
    if path = [] then none
    else if (firstSegment path).1 = [47] then none
    else (matchPath ps (firstSegment path).2).map (fun vals => (name, (firstSegment path).1) :: vals)

/-- Does a pattern method accept a request method? GET patterns also accept HEAD. -/
def methodMatches (patternMethod requestMethod : String) : Bool :=
  patternMethod = requestMethod || (patternMethod = "GET" && requestMethod = "HEAD")

/-- Outcome of the mux lookup. -/
inductive Dispatch where
  | found (h : Handler) (pathValues : List (String × List Nat))
  | redirect (cleaned : List Nat)
  | methodNotAllowed
  | notFound
  deriving DecidableEq, Repr

/-- First route of a table whose method and path both match. No two patterns of
`server.routes` with the same method match the same path, so the order of the
table does not matter. -/
def findRoute (table : List Route) (method : String) (path : List Nat) :
    Option (Handler × List (String × List Nat)) :=
  table.findSome? (fun rt =>
    if methodMatches rt.method method then
      (matchPath rt.segments path).map (fun vals => (rt.handler, vals))
    else none)

/-- The mux lookup over a route table, given the request method and escaped path: a
redirect when the path is not in cleaned form (CONNECT requests are not
cleaned); else the matching handler; else 405 when the path matches a pattern
of another method; else 404. -/
def dispatchIn (table : List Route) (method escapedPath : String) : Dispatch :=
  let path := goBytes escapedPath
  if method ≠ "CONNECT" ∧ cleanPath path ≠ path then Dispatch.redirect (cleanPath path)
  else
    match findRoute table method path with
    | some (h, vals) => Dispatch.found h vals
    | none =>
      if table.any (fun rt => (matchPath rt.segments path).isSome) then
        Dispatch.methodNotAllowed
      else Dispatch.notFound

/-- The mux lookup over the table that `server.routes` builds. -/
def dispatch (method escapedPath : String) : Dispatch :=
  dispatchIn routes method escapedPath

/-- What serving one request ends in. -/
inductive Served where
  /-- A handler, or the mux itself, wrote this response and left this database. -/
  | response (w : ResponseWriter) (db : DB)
  /-- The mux answered with a redirect to the cleaned path; status and body of that
  answer are those of `http.RedirectHandler` and are not modelled. -/
  | redirect (cleaned : List Nat)
  /-- The handler panicked. -/
  | panic
  deriving DecidableEq, Repr

/-- The method `ServeHTTP` of the router built by `server.routes`: run the handler the
lookup selects on the request carrying the wildcard values. -/
def ServeHTTP (jsonUnmarshal : String → Place → Except String Place)
    (db : DB) (r : Request) : Served :=
  let w := ResponseWriter.fresh
  match dispatch r.method r.escapedPath with
  | Dispatch.redirect cleaned => Served.redirect cleaned
  | Dispatch.notFound =>
    Served.response (httpError w "404 page not found" StatusNotFound) db
  | Dispatch.methodNotAllowed =>
    Served.response (httpError w "Method Not Allowed" StatusMethodNotAllowed) db
  | Dispatch.found h vals =>
    let r1 := { r with pathValues := vals }
    match h with
    | Handler.getPlaces => Served.response (getPlaces db w r1).1 (getPlaces db w r1).2
    | Handler.createPlace =>
      Served.response (createPlace jsonUnmarshal db w r1).1 (createPlace jsonUnmarshal db w r1).2
    | Handler.getPlace => Served.response (getPlace db w r1).1 (getPlace db w r1).2
    | Handler.updatePlace =>
      match updatePlace jsonUnmarshal db w r1 with
      | none => Served.panic
      | some res => Served.response res.1 res.2
    | Handler.deletePlace => Served.response (deletePlace db w r1).1 (deletePlace db w r1).2

/-! ## Sample data

The fixtures of `main_test.go` and the scenarios of the specification, used to
evaluate the embedding on concrete requests. -/

/-- A name of 100 characters, each the two-byte letter U+00E9. -/
def accentedName : String :=
  String.mk (List.replicate 100 (Char.ofNat 233))

/-- A place whose fields are all within the documented character limits. -/
def accentedPlace : Place :=
  { ID := 0, Name := accentedName, Address := "1 Main St", Description := "" }

/-- A place with a name of 60 characters, each the two-byte letter U+00E9, and an
empty address. -/
def shortAccentedPlace : Place :=
  { ID := 0, Name := String.mk (List.replicate 60 (Char.ofNat 233)), Address := "",
    Description := "" }

/-- The database after `setupTestDB`: the two inserted rows. -/
def testDB : DB :=
  { places := [ { ID := 1, Name := "Place1", Address := "Address1", Description := "Description1" },
                { ID := 2, Name := "Place2", Address := "Address2", Description := "Description2" } ],
    place := [], nextID := 3, fault := none, log := [] }

/-- A database holding the two places of the filter scenario. -/
def filterDB : DB :=
  { places := [ { ID := 1, Name := "Alpha House", Address := "1 Main St", Description := "" },
                { ID := 2, Name := "Beta Lodge", Address := "2 Main St", Description := "" } ],
    place := [], nextID := 3, fault := none, log := [] }

/-- The place `TestCreatePlaceAPI` posts. -/
def newPlace : Place :=
  { ID := 0, Name := "New Place", Address := "456 Street", Description := "xyz" }

/-- The place `TestUpdatePlaceAPI` puts. -/
def updatedPlace : Place :=
  { ID := 0, Name := "Updated Place", Address := "789 Boulevard", Description := "updated description" }

/-- A place with an empty name and an address of 201 bytes. -/
def namelessPlace : Place :=
  { ID := 0, Name := "", Address := String.mk (List.replicate 201 (Char.ofNat 97)), Description := "" }

/-- The decoder on the bodies the samples send: the encoding of one of the known
places decodes to that place, any other body is reported as malformed. -/
def sampleUnmarshal (body : String) (_ : Place) : Except String Place :=
  match [newPlace, updatedPlace, namelessPlace].find? (fun p => jsonMarshalPlace p = body) with
  | some p => Except.ok p
  | none => Except.error "unexpected end of JSON input"

/-- A request with a body, no query and no wildcard values. -/
def sampleRequest (method path body : String) : Request :=
  { method := method, path := path, escapedPath := path, query := [], pathValues := [],
    body := Except.ok body }

/-- A list request with the given `name` filter. -/
def listRequest (filter : String) : Request :=
  { method := "GET", path := "/v1/places", escapedPath := "/v1/places",
    query := [("name", filter)], pathValues := [], body := Except.ok "" }

/-- A request as the mux hands it to a handler registered under `{id}`. -/
def idRequest (method id : String) : Request :=
  { method := method, path := "/v1/places/" ++ id, escapedPath := "/v1/places/" ++ id,
    query := [], pathValues := [("id", goBytes id)], body := Except.ok "" }

end PetPlaces

namespace PetPlaces

set_option maxRecDepth 100000

/-! ## Validation -/

/-- What `validatePlace` accepts, in the measure the code uses: byte lengths. -/
theorem validatePlace_eq_none_iff (p : Place) :
    validatePlace p = none ↔
      p.Name ≠ "" ∧ len p.Name ≤ 100 ∧ p.Address ≠ "" ∧ len p.Address ≤ 200 ∧
        len p.Description ≤ 500 := by
  unfold validatePlace
  constructor
  · intro h
    split_ifs at h with h1 h2 h3 h4 h5
    exact ⟨h1, by omega, h3, by omega, by omega⟩
  · rintro ⟨h1, h2, h3, h4, h5⟩
    rw [if_neg h1, if_neg (by omega), if_neg h3, if_neg (by omega), if_neg (by omega)]

/-- Claim C1, at the failing input: a place whose name has exactly 100 characters
(so every field is within the documented character limits) is rejected with the
message that the name exceeds 100 characters, because the code compares the
byte length, 200 here, with 100. -/
theorem validatePlace_rejects_name_of_100_characters :
    runeCount accentedPlace.Name = 100 ∧ accentedPlace.Name ≠ "" ∧
      runeCount accentedPlace.Address ≤ 200 ∧ accentedPlace.Address ≠ "" ∧
      runeCount accentedPlace.Description ≤ 500 ∧
      len accentedPlace.Name = 200 ∧
      validatePlace accentedPlace = some "name cannot exceed 100 characters" := by
  decide

/-- The order of the rules as the code applies them, every length measured with
`len`, in bytes: name empty, name over 100 bytes, address empty, address over
200 bytes, description over 500 bytes. -/
theorem validatePlace_rule_order_in_bytes (p : Place) :
    (p.Name = "" → validatePlace p = some "name is required") ∧
    (p.Name ≠ "" → 100 < len p.Name →
      validatePlace p = some "name cannot exceed 100 characters") ∧
    (p.Name ≠ "" → len p.Name ≤ 100 → p.Address = "" →
      validatePlace p = some "address is required") ∧
    (p.Name ≠ "" → len p.Name ≤ 100 → p.Address ≠ "" → 200 < len p.Address →
      validatePlace p = some "address cannot exceed 200 characters") ∧
    (p.Name ≠ "" → len p.Name ≤ 100 → p.Address ≠ "" → len p.Address ≤ 200 →
      500 < len p.Description →
      validatePlace p = some "description cannot exceed 500 characters") ∧
    (validatePlace p ≠ none →
      p.Name = "" ∨ 100 < len p.Name ∨ p.Address = "" ∨ 200 < len p.Address ∨
        500 < len p.Description) := by
  unfold validatePlace
  refine ⟨?_, ?_, ?_, ?_, ?_, ?_⟩
  · intro h; simp [h]
  · intro h1 h2; simp [h1, h2]
  · intro h1 h2 h3; simp [h1, h3, Nat.not_lt.mpr h2]
  · intro h1 h2 h3 h4; simp [h1, h3, h4, Nat.not_lt.mpr h2]
  · intro h1 h2 h3 h4 h5; simp [h1, h3, h5, Nat.not_lt.mpr h2, Nat.not_lt.mpr h4]
  · intro h
    by_contra hc
    push_neg at hc
    obtain ⟨h1, h2, h3, h4, h5⟩ := hc
    simp [h1, h3, Nat.not_lt.mpr h2, Nat.not_lt.mpr h4, Nat.not_lt.mpr h5] at h

/-- Claim C10, at the failing input: a place whose name is non-empty and has 60
characters, so the name rules pass, and whose address is empty. The first
failing rule is the empty address, with message `address is required`, but
`validatePlace` returns `name cannot exceed 100 characters`: it compares the
byte length of the name, 120 here, with 100. On a place with an empty name and
an over-long address the code does report only the name, as the claim says. -/
theorem validatePlace_reports_name_rule_before_empty_address :
    shortAccentedPlace.Name ≠ "" ∧ runeCount shortAccentedPlace.Name = 60 ∧
      shortAccentedPlace.Address = "" ∧
      len shortAccentedPlace.Name = 120 ∧
      validatePlace shortAccentedPlace = some "name cannot exceed 100 characters" ∧
      validatePlace shortAccentedPlace ≠ some "address is required" ∧
      namelessPlace.Name = "" ∧ 200 < runeCount namelessPlace.Address ∧
      validatePlace namelessPlace = some "name is required" := by
  decide

/-! ## Response writer facts -/

/-- Appending to the empty body. -/
theorem empty_append_string (s : String) : "" ++ s = s := by
  apply String.ext
  simp

/-- A first `Write` answers 200 with exactly the bytes written. -/
theorem fresh_Write (b : String) :
    (ResponseWriter.fresh.Write b).status = 200 ∧ (ResponseWriter.fresh.Write b).body = b := by
  simp [ResponseWriter.Write, ResponseWriter.WriteHeader, ResponseWriter.fresh,
    ResponseWriter.status, empty_append_string]

/-- A first `http.Error` answers the given status with the message as a plain-text
line. -/
theorem fresh_httpError (msg : String) (code : Nat) :
    (httpError ResponseWriter.fresh msg code).status = code ∧
      (httpError ResponseWriter.fresh msg code).body = msg ++ "\n" ∧
      (httpError ResponseWriter.fresh msg code).declaredContentType
        = some "text/plain; charset=utf-8" := by
  simp [httpError, ResponseWriter.WriteHeader, ResponseWriter.fresh,
    ResponseWriter.status, empty_append_string]

/-- A first `WriteHeader` answers the given status with no body. -/
theorem fresh_WriteHeader (code : Nat) :
    (ResponseWriter.fresh.WriteHeader code).status = code ∧
      (ResponseWriter.fresh.WriteHeader code).body = "" := by
  simp [ResponseWriter.WriteHeader, ResponseWriter.fresh, ResponseWriter.status]

/-! ## Create -/

/-- Claim C2, as the code has it: when the body decodes to a place that passes
validation and the insert succeeds with id `n`, the body is the JSON encoding of
the place with id `n`, but the status is the default 200 OK, not 201 Created:
`createPlace` never calls `WriteHeader`. -/
theorem createPlace_success_responds_200
    (jsonUnmarshal : String → Place → Except String Place) (db : DB) (r : Request)
    (body : String) (place : Place) (n : Int) (db1 : DB)
    (hbody : r.body = Except.ok body)
    (hdec : jsonUnmarshal body Place.zero = Except.ok place)
    (hval : validatePlace place = none)
    (hins : createPlaceDB db place = ((n, none), db1)) :
    (createPlace jsonUnmarshal db ResponseWriter.fresh r).1.status = StatusOK ∧
      (createPlace jsonUnmarshal db ResponseWriter.fresh r).1.status ≠ StatusCreated ∧
      (createPlace jsonUnmarshal db ResponseWriter.fresh r).1.body
        = jsonMarshalPlace { place with ID := n } ∧
      (createPlace jsonUnmarshal db ResponseWriter.fresh r).2 = db1 := by
  have h : createPlace jsonUnmarshal db ResponseWriter.fresh r
      = (ResponseWriter.fresh.Write (jsonMarshalPlace { place with ID := n }), db1) := by
    simp [createPlace, hbody, hdec, hval, hins]
  rw [h]
  have hw := fresh_Write (jsonMarshalPlace { place with ID := n })
  refine ⟨?_, ?_, hw.2, rfl⟩
  · simpa [StatusOK] using hw.1
  · simp [hw.1, StatusCreated]

/-- Claim C2 at the request of `TestCreatePlaceAPI`: the insert returns id 3 and the
response is 200 with the created object, where the test expects 201. -/
theorem createPlace_success_responds_200_witness :
    (createPlace sampleUnmarshal testDB ResponseWriter.fresh
        (sampleRequest "POST" "/places" (jsonMarshalPlace newPlace))).1.status = 200 ∧
      (createPlace sampleUnmarshal testDB ResponseWriter.fresh
        (sampleRequest "POST" "/places" (jsonMarshalPlace newPlace))).1.status ≠ 201 ∧
      (createPlace sampleUnmarshal testDB ResponseWriter.fresh
        (sampleRequest "POST" "/places" (jsonMarshalPlace newPlace))).1.body
        = "\x7b\"id\":3,\"name\":\"New Place\",\"address\":\"456 Street\",\"description\":\"xyz\"\x7d" ∧
      (createPlace sampleUnmarshal testDB ResponseWriter.fresh
        (sampleRequest "POST" "/places" (jsonMarshalPlace newPlace))).2
        = (createPlaceDB testDB newPlace).2 :=
  createPlace_success_responds_200 sampleUnmarshal testDB
    (sampleRequest "POST" "/places" (jsonMarshalPlace newPlace))
    (jsonMarshalPlace newPlace) newPlace 3 (createPlaceDB testDB newPlace).2
    rfl rfl (by decide) (by decide)

/-- Claim C7: when the body decodes to a place that `validatePlace` rejects with
message `e`, the response is 400, its body is `e` written by `http.Error` as a
plain-text line (the message and a newline), and the database value comes back
untouched, statement log included: `createPlaceDB` is not called. -/
theorem createPlace_invalid_responds_400
    (jsonUnmarshal : String → Place → Except String Place) (db : DB) (r : Request)
    (body : String) (place : Place) (e : String)
    (hbody : r.body = Except.ok body)
    (hdec : jsonUnmarshal body Place.zero = Except.ok place)
    (hval : validatePlace place = some e) :
    (createPlace jsonUnmarshal db ResponseWriter.fresh r).1.status = StatusBadRequest ∧
      (createPlace jsonUnmarshal db ResponseWriter.fresh r).1.body = e ++ "\n" ∧
      (createPlace jsonUnmarshal db ResponseWriter.fresh r).1.declaredContentType
        = some "text/plain; charset=utf-8" ∧
      (createPlace jsonUnmarshal db ResponseWriter.fresh r).2 = db := by
  have h : createPlace jsonUnmarshal db ResponseWriter.fresh r
      = (httpError ResponseWriter.fresh e StatusBadRequest, db) := by
    simp [createPlace, hbody, hdec, hval]
  rw [h]
  have hw := fresh_httpError e StatusBadRequest
  exact ⟨hw.1, hw.2.1, hw.2.2, rfl⟩

/-- Claim C7 at a concrete request: a place with an empty name and an over-long
address is answered 400 with the name message, and nothing reaches the store. -/
theorem createPlace_invalid_responds_400_witness :
    (createPlace sampleUnmarshal testDB ResponseWriter.fresh
        (sampleRequest "POST" "/v1/places" (jsonMarshalPlace namelessPlace))).1.status = 400 ∧
      (createPlace sampleUnmarshal testDB ResponseWriter.fresh
        (sampleRequest "POST" "/v1/places" (jsonMarshalPlace namelessPlace))).1.body
        = "name is required" ++ "\n" ∧
      (createPlace sampleUnmarshal testDB ResponseWriter.fresh
        (sampleRequest "POST" "/v1/places" (jsonMarshalPlace namelessPlace))).1.declaredContentType
        = some "text/plain; charset=utf-8" ∧
      (createPlace sampleUnmarshal testDB ResponseWriter.fresh
        (sampleRequest "POST" "/v1/places" (jsonMarshalPlace namelessPlace))).2 = testDB :=
  createPlace_invalid_responds_400 sampleUnmarshal testDB
    (sampleRequest "POST" "/v1/places" (jsonMarshalPlace namelessPlace))
    (jsonMarshalPlace namelessPlace) namelessPlace "name is required"
    rfl rfl (by decide)

/-! ## Update -/

/-- Whatever the request, `updatePlace` stops before the store: it panics on a path
shorter than 8 bytes, or answers 400 and hands the database back untouched. -/
theorem updatePlace_never_reaches_store
    (jsonUnmarshal : String → Place → Except String Place) (db : DB) (w : ResponseWriter)
    (r : Request) :
    updatePlace jsonUnmarshal db w r = none ∨
      ∃ msg, updatePlace jsonUnmarshal db w r = some (httpError w msg StatusBadRequest, db) := by
  unfold updatePlace
  split_ifs with hlen
  · exact Or.inl rfl
  · right
    cases hp : (Atoi (List.drop (len "/places/") (goBytes r.path))).2 with
    | some e => exact ⟨"ID not found", by simp [hp]⟩
    | none =>
      cases hb : r.body with
      | error err => exact ⟨err, by simp [hp, hb]⟩
      | ok body =>
        refine ⟨"name is required", ?_⟩
        have hv : validatePlace Place.zero = some "name is required" := by decide
        simp [hp, hb, hv]

/-- Claim C3, at the failing input: a PUT whose path id is the integer 1 and whose
body is the encoding of a valid place, with a store whose update would succeed,
is answered 400. Called on the path `/places/1` the handler validates the empty
place and answers `name is required`; reached through the router on
`/v1/places/1` it reads the id from byte 8 of the path and answers
`ID not found`. Neither reaches the store, and no request ever gets 204. -/
theorem updatePlace_valid_request_responds_400 :
    (Atoi (goBytes "1") = (1, none) ∧
      sampleUnmarshal (jsonMarshalPlace updatedPlace) Place.zero = Except.ok updatedPlace ∧
      validatePlace updatedPlace = none ∧
      (updatePlaceDB testDB updatedPlace 1).1 = none) ∧
    updatePlace sampleUnmarshal testDB ResponseWriter.fresh
        (sampleRequest "PUT" "/places/1" (jsonMarshalPlace updatedPlace))
      = some ({ contentType := some "text/plain; charset=utf-8", code := some 400,
                declaredContentType := some "text/plain; charset=utf-8",
                body := "name is required\n" }, testDB) ∧
    dispatch "PUT" "/v1/places/1"
      = Dispatch.found Handler.updatePlace [("id", goBytes "1")] ∧
    ServeHTTP sampleUnmarshal testDB
        (sampleRequest "PUT" "/v1/places/1" (jsonMarshalPlace updatedPlace))
      = Served.response
          { contentType := some "text/plain; charset=utf-8", code := some 400,
            declaredContentType := some "text/plain; charset=utf-8",
            body := "ID not found\n" } testDB ∧
    (∀ (jsonUnmarshal : String → Place → Except String Place) (db : DB) (r : Request)
        (w : ResponseWriter) (db1 : DB),
        updatePlace jsonUnmarshal db ResponseWriter.fresh r = some (w, db1) →
          w.status = StatusBadRequest ∧ w.status ≠ StatusNoContent ∧ db1 = db) := by
  refine ⟨⟨by decide, rfl, by decide, by decide⟩, by decide, by decide, by decide, ?_⟩
  intro f db r w db1 h
  rcases updatePlace_never_reaches_store f db ResponseWriter.fresh r with hn | ⟨msg, hm⟩
  · rw [hn] at h; cases h
  · rw [hm] at h
    cases h
    have hw := fresh_httpError msg StatusBadRequest
    refine ⟨hw.1, ?_, rfl⟩
    rw [hw.1]; decide

/-! ## Delete -/

/-- Claim C6: a path id that does not parse is answered 400 with `ID not found` and the
database value comes back untouched, statement log included; a parsed id whose
delete returns no error is answered 204 with an empty body, and the delete
returns no error whenever the database does not fail the statement, whether or
not a row has that id; a delete error `e` is answered 500 with `e` as a
plain-text line. -/
theorem deletePlace_contract (db : DB) (r : Request) :
    ((Atoi (r.PathValue "id")).2 ≠ none →
      (deletePlace db ResponseWriter.fresh r).1.status = StatusBadRequest ∧
      (deletePlace db ResponseWriter.fresh r).1.body = "ID not found" ++ "\n" ∧
      (deletePlace db ResponseWriter.fresh r).2 = db) ∧
    (∀ id : Int, Atoi (r.PathValue "id") = (id, none) →
      (deletePlaceDB db id).1 = none →
      (deletePlace db ResponseWriter.fresh r).1.status = StatusNoContent ∧
      (deletePlace db ResponseWriter.fresh r).1.body = "" ∧
      (deletePlace db ResponseWriter.fresh r).2 = (deletePlaceDB db id).2) ∧
    (∀ (id : Int) (e : String), Atoi (r.PathValue "id") = (id, none) →
      (deletePlaceDB db id).1 = some e →
      (deletePlace db ResponseWriter.fresh r).1.status = StatusInternalServerError ∧
      (deletePlace db ResponseWriter.fresh r).1.body = e ++ "\n" ∧
      (deletePlace db ResponseWriter.fresh r).2 = (deletePlaceDB db id).2) ∧
    (∀ id : Int, db.fault = none →
      (deletePlaceDB db id).1 = none ∧
      ((∀ row ∈ db.places, row.ID ≠ id) → (deletePlaceDB db id).2.places = db.places)) := by
  refine ⟨?_, ?_, ?_, ?_⟩
  · intro h
    cases hp : (Atoi (r.PathValue "id")).2 with
    | none => exact absurd hp h
    | some e =>
      have hd : deletePlace db ResponseWriter.fresh r
          = (httpError ResponseWriter.fresh "ID not found" StatusBadRequest, db) := by
        simp [deletePlace, hp]
      rw [hd]
      have hw := fresh_httpError "ID not found" StatusBadRequest
      exact ⟨hw.1, hw.2.1, rfl⟩
  · intro id hp hs
    have hd : deletePlace db ResponseWriter.fresh r
        = (ResponseWriter.fresh.WriteHeader StatusNoContent, (deletePlaceDB db id).2) := by
      simp [deletePlace, hp, hs]
    rw [hd]
    have hw := fresh_WriteHeader StatusNoContent
    exact ⟨hw.1, hw.2, rfl⟩
  · intro id e hp hs
    have hd : deletePlace db ResponseWriter.fresh r
        = (httpError ResponseWriter.fresh e StatusInternalServerError, (deletePlaceDB db id).2) := by
      simp [deletePlace, hp, hs]
    rw [hd]
    have hw := fresh_httpError e StatusInternalServerError
    exact ⟨hw.1, hw.2.1, rfl⟩
  · intro id hf
    refine ⟨by simp [deletePlaceDB, hf], ?_⟩
    intro hall
    simp only [deletePlaceDB, hf, DB.received]
    rw [List.filter_eq_self]
    intro row hrow
    simpa using hall row hrow

/-- Claim C6 on the test database: id `abc` is answered 400 without a store call; id 9,
which no row has, is answered 204 with no body and the rows stay as they were;
with a failing database the answer is 500 carrying the driver text. -/
theorem deletePlace_contract_witness :
    ((deletePlace testDB ResponseWriter.fresh (idRequest "DELETE" "abc")).1.status = 400 ∧
      (deletePlace testDB ResponseWriter.fresh (idRequest "DELETE" "abc")).1.body
        = "ID not found" ++ "\n" ∧
      (deletePlace testDB ResponseWriter.fresh (idRequest "DELETE" "abc")).2 = testDB) ∧
    ((deletePlace testDB ResponseWriter.fresh (idRequest "DELETE" "9")).1.status = 204 ∧
      (deletePlace testDB ResponseWriter.fresh (idRequest "DELETE" "9")).1.body = "" ∧
      (deletePlace testDB ResponseWriter.fresh (idRequest "DELETE" "9")).2
        = (deletePlaceDB testDB 9).2) ∧
    ((deletePlace { testDB with fault := some "driver: bad connection" } ResponseWriter.fresh
        (idRequest "DELETE" "1")).1.status = 500 ∧
      (deletePlace { testDB with fault := some "driver: bad connection" } ResponseWriter.fresh
        (idRequest "DELETE" "1")).1.body = "driver: bad connection" ++ "\n" ∧
      (deletePlace { testDB with fault := some "driver: bad connection" } ResponseWriter.fresh
        (idRequest "DELETE" "1")).2
        = (deletePlaceDB { testDB with fault := some "driver: bad connection" } 1).2) ∧
    (deletePlaceDB testDB 9).2.places = testDB.places :=
  ⟨(deletePlace_contract testDB (idRequest "DELETE" "abc")).1 (by decide),
   (deletePlace_contract testDB (idRequest "DELETE" "9")).2.1 9 (by decide) (by decide),
   (deletePlace_contract { testDB with fault := some "driver: bad connection" }
      (idRequest "DELETE" "1")).2.2.1 1 "driver: bad connection" (by decide) (by decide),
   ((deletePlace_contract testDB (idRequest "DELETE" "9")).2.2.2 9 rfl).2 (by decide)⟩

/-! ## List -/

/-- The scan loop of `getPlacesDB` appends the rows in order. -/
theorem foldl_append_singleton (rows init : List Place) :
    rows.foldl (fun places place => places ++ [place]) init = init ++ rows := by
  induction rows generalizing init with
  | nil => simp
  | cons row rest ih => simp [ih]

/-- On success `getPlacesDB` returns a non-nil slice: the selected rows in scan order. -/
theorem getPlacesDB_ok (db : DB) (q : String) (h : (getPlacesDB db q).1.2 = none) :
    (getPlacesDB db q).1.1 = some (db.places.filter (whereLike q)) := by
  unfold getPlacesDB at h ⊢
  cases hf : db.fault with
  | some e => simp [hf] at h
  | none => simp [hf, foldl_append_singleton]

/-- An array encoding is never the text `null`. -/
theorem array_ne_null (inner : String) : "[" ++ inner ++ "]" ≠ "null" := by
  intro h
  have hd := congrArg String.data h
  simp at hd

/-- Claim C9: when the store query succeeds, `getPlaces` answers 200 and the body is a
JSON array with one object per selected row, in the order of the scan; with no
row it is `[]`, and it is never `null`. -/
theorem getPlaces_ok_responds_array (db : DB) (r : Request)
    (h : (getPlacesDB db (r.queryGet "name")).1.2 = none) :
    (getPlacesDB db (r.queryGet "name")).1.1
        = some (db.places.filter (whereLike (r.queryGet "name"))) ∧
      (getPlaces db ResponseWriter.fresh r).1.status = StatusOK ∧
      (getPlaces db ResponseWriter.fresh r).1.body
        = "[" ++ String.intercalate ","
            ((db.places.filter (whereLike (r.queryGet "name"))).map jsonMarshalPlace) ++ "]" ∧
      (db.places.filter (whereLike (r.queryGet "name")) = [] →
        (getPlaces db ResponseWriter.fresh r).1.body = "[]") ∧
      (getPlaces db ResponseWriter.fresh r).1.body ≠ "null" := by
  have hrows := getPlacesDB_ok db (r.queryGet "name") h
  have hg : getPlaces db ResponseWriter.fresh r
      = (ResponseWriter.fresh.Write ("[" ++ String.intercalate ","
            ((db.places.filter (whereLike (r.queryGet "name"))).map jsonMarshalPlace) ++ "]"),
          (getPlacesDB db (r.queryGet "name")).2) := by
    simp [getPlaces, h, hrows, jsonMarshalPlaces]
  rw [hg]
  have hw := fresh_Write ("[" ++ String.intercalate ","
            ((db.places.filter (whereLike (r.queryGet "name"))).map jsonMarshalPlace) ++ "]")
  refine ⟨hrows, hw.1, hw.2, ?_, ?_⟩
  · intro hnil
    simp only [hw.2, hnil]
    decide
  · simp only [hw.2]
    exact array_ne_null _

/-- Claim C9 on the test database: the unfiltered list is the array of the two rows in
order, and a filter no row matches gives `[]`. -/
theorem getPlaces_ok_responds_array_witness :
    ((getPlaces testDB ResponseWriter.fresh (listRequest "")).1.status = 200 ∧
      (getPlaces testDB ResponseWriter.fresh (listRequest "")).1.body
        = "[\x7b\"id\":1,\"name\":\"Place1\",\"address\":\"Address1\",\"description\":\"Description1\"\x7d,\x7b\"id\":2,\"name\":\"Place2\",\"address\":\"Address2\",\"description\":\"Description2\"\x7d]") ∧
    ((getPlaces testDB ResponseWriter.fresh (listRequest "zoo")).1.status = 200 ∧
      (getPlaces testDB ResponseWriter.fresh (listRequest "zoo")).1.body = "[]" ∧
      (getPlaces testDB ResponseWriter.fresh (listRequest "zoo")).1.body ≠ "null") :=
  ⟨⟨(getPlaces_ok_responds_array testDB (listRequest "") (by decide)).2.1,
    (getPlaces_ok_responds_array testDB (listRequest "") (by decide)).2.2.1⟩,
   ⟨(getPlaces_ok_responds_array testDB (listRequest "zoo") (by decide)).2.1,
    (getPlaces_ok_responds_array testDB (listRequest "zoo") (by decide)).2.2.2.1 (by decide),
    (getPlaces_ok_responds_array testDB (listRequest "zoo") (by decide)).2.2.2.2⟩⟩

/-- A lower-cased character is not one of A to Z. -/
theorem toLower_not_isUpper (c : Char) : c.toLower.isUpper = false := by
  unfold Char.toLower
  simp only []
  split_ifs with h
  · obtain ⟨h1, h2⟩ := h
    have h3 : c.toNat ≤ 90 := h2
    have h4 : 65 ≤ c.toNat := h1
    generalize c.toNat = n at h3 h4
    interval_cases n <;> decide
  · simp only [Char.isUpper, Bool.and_eq_false_imp, decide_eq_true_eq]
    intro h1
    simp only [not_and_or] at h
    simp only [decide_eq_false_iff_not]
    rcases h with h | h
    · exact absurd h1 h
    · exact h

/-- The wildcard fails when the rest of the pattern fails on every text without
upper-case letters. -/
theorem anySuffix_false (f : List Char → Bool) (t : List Char)
    (hf : ∀ s : List Char, (∀ x ∈ s, x.isUpper = false) → f s = false)
    (ht : ∀ x ∈ t, x.isUpper = false) : anySuffix f t = false := by
  induction t with
  | nil => simpa [anySuffix] using hf [] (by simp)
  | cons c cs ih =>
    have hcs : ∀ x ∈ cs, x.isUpper = false := fun x hx => ht x (List.mem_cons_of_mem c hx)
    simp [anySuffix, hf (c :: cs) ht, ih hcs]

/-- An upper-case letter of the pattern is read as a literal. -/
theorem likeTokens_upper (cs : List Char) : ∀ (escaped : Bool),
    (∃ c ∈ cs, c.isUpper = true) →
    ∃ c, LikeToken.lit c ∈ likeTokens escaped cs ∧ c.isUpper = true := by
  induction cs with
  | nil => intro _ h; obtain ⟨c, hc, _⟩ := h; cases hc
  | cons d ds ih =>
    intro escaped h
    obtain ⟨c, hc, hcu⟩ := h
    cases escaped with
    | true =>
      rcases List.mem_cons.mp hc with rfl | hc
      · exact ⟨c, by simp [likeTokens], hcu⟩
      · obtain ⟨c2, hm, hu⟩ := ih false ⟨c, hc, hcu⟩
        exact ⟨c2, by simp [likeTokens, hm], hu⟩
    | false =>
      rcases List.mem_cons.mp hc with rfl | hc
      · have h92 : c ≠ Char.ofNat 92 := by rintro rfl; exact absurd hcu (by decide)
        have h37 : c ≠ Char.ofNat 37 := by rintro rfl; exact absurd hcu (by decide)
        have h95 : c ≠ Char.ofNat 95 := by rintro rfl; exact absurd hcu (by decide)
        exact ⟨c, by simp [likeTokens, h92, h37, h95], hcu⟩
      · simp only [likeTokens]
        split_ifs
        · exact ih true ⟨c, hc, hcu⟩
        · obtain ⟨c2, hm, hu⟩ := ih false ⟨c, hc, hcu⟩
          exact ⟨c2, List.mem_cons_of_mem _ hm, hu⟩
        · obtain ⟨c2, hm, hu⟩ := ih false ⟨c, hc, hcu⟩
          exact ⟨c2, List.mem_cons_of_mem _ hm, hu⟩
        · obtain ⟨c2, hm, hu⟩ := ih false ⟨c, hc, hcu⟩
          exact ⟨c2, List.mem_cons_of_mem _ hm, hu⟩

/-- A pattern with an upper-case literal matches no text free of upper-case letters. -/
theorem likeMatch_upper_false (toks : List LikeToken) : ∀ (text : List Char),
    (∃ c, LikeToken.lit c ∈ toks ∧ c.isUpper = true) → (∀ x ∈ text, x.isUpper = false) →
    likeMatch toks text = false := by
  induction toks with
  | nil => intro _ h; obtain ⟨c, hc, _⟩ := h; cases hc
  | cons tok rest ih =>
    intro text hup hlow
    obtain ⟨c, hc, hcu⟩ := hup
    cases tok with
    | anyRun =>
      have hrest : ∃ c, LikeToken.lit c ∈ rest ∧ c.isUpper = true := by
        rcases List.mem_cons.mp hc with h | h
        · cases h
        · exact ⟨c, h, hcu⟩
      simp only [likeMatch]
      exact anySuffix_false _ _ (fun s hs => ih s hrest hs) hlow
    | anyOne =>
      have hrest : ∃ c, LikeToken.lit c ∈ rest ∧ c.isUpper = true := by
        rcases List.mem_cons.mp hc with h | h
        · cases h
        · exact ⟨c, h, hcu⟩
      cases text with
      | nil => simp [likeMatch]
      | cons x ts =>
        simp only [likeMatch]
        exact ih ts hrest (fun y hy => hlow y (List.mem_cons_of_mem x hy))
    | lit d =>
      cases text with
      | nil => simp [likeMatch]
      | cons x ts =>
        simp only [likeMatch, Bool.and_eq_false_imp, decide_eq_true_eq]
        intro hxd
        have hxl : x.isUpper = false := hlow x (List.mem_cons_self x ts)
        have hrest : ∃ c, LikeToken.lit c ∈ rest ∧ c.isUpper = true := by
          rcases List.mem_cons.mp hc with h | h
          · cases h
            rw [← hxd, hxl] at hcu
            exact absurd hcu (by decide)
          · exact ⟨c, h, hcu⟩
        exact ih ts hrest (fun y hy => hlow y (List.mem_cons_of_mem x hy))

/-- No row passes the WHERE clause when the filter has an upper-case letter. -/
theorem whereLike_upper_false (arg : String) (row : Place)
    (h : ∃ c ∈ arg.data, c.isUpper = true) : whereLike arg row = false := by
  unfold whereLike
  apply likeMatch_upper_false
  · apply likeTokens_upper
    obtain ⟨c, hc, hcu⟩ := h
    exact ⟨c, by simp [String.data_append, hc], hcu⟩
  · intro x hx
    simp only [sqlLower, List.mem_map] at hx
    obtain ⟨y, _, rfl⟩ := hx
    exact toLower_not_isUpper y

/-- Claim C4, at the failing input: with places named `Alpha House` and `Beta Lodge`,
the filter `alpha` selects exactly the first and the empty filter selects both,
but the filters `ALPHA` and `Alpha` select nothing and `getPlaces` answers `[]`:
the statement lower-cases the stored name and compares it with the filter as
the client sent it. A filter is also read as a LIKE pattern: `_lpha` selects the
first place although its name has no underscore. In general, on every database
a filter holding one of the letters A to Z selects no row. -/
theorem getPlaces_upper_case_filter_selects_nothing :
    (getPlacesDB filterDB "alpha").1
        = (some [ { ID := 1, Name := "Alpha House", Address := "1 Main St", Description := "" } ],
            none) ∧
      (getPlacesDB filterDB "").1 = (some filterDB.places, none) ∧
      (getPlacesDB filterDB "ALPHA").1 = (some [], none) ∧
      (getPlacesDB filterDB "Alpha").1 = (some [], none) ∧
      (getPlaces filterDB ResponseWriter.fresh (listRequest "ALPHA")).1.status = 200 ∧
      (getPlaces filterDB ResponseWriter.fresh (listRequest "ALPHA")).1.body = "[]" ∧
      (getPlaces filterDB ResponseWriter.fresh (listRequest "Alpha")).1.body = "[]" ∧
      (getPlaces filterDB ResponseWriter.fresh (listRequest "alpha")).1.body
        = "[\x7b\"id\":1,\"name\":\"Alpha House\",\"address\":\"1 Main St\",\"description\":\"\"\x7d]" ∧
      (getPlacesDB filterDB "_lpha").1
        = (some [ { ID := 1, Name := "Alpha House", Address := "1 Main St", Description := "" } ],
            none) ∧
      (∀ (db : DB) (filter : String), (∃ c ∈ filter.data, c.isUpper = true) →
        (getPlacesDB db filter).1.2 = none → (getPlacesDB db filter).1.1 = some []) := by
  refine ⟨by decide, by decide, by decide, by decide, by decide, by decide, by decide,
    by decide, by decide, ?_⟩
  intro db filter hup hok
  rw [getPlacesDB_ok db filter hok]
  congr 1
  rw [List.filter_eq_nil_iff]
  intro row _
  simp [whereLike_upper_false filter row hup]

/-! ## Get by id -/

/-- The encoding of a place pointer is never empty. -/
theorem jsonMarshalPlacePtr_ne_empty (p : Option Place) : jsonMarshalPlacePtr p ≠ "" := by
  intro h
  have hd := congrArg String.data h
  cases p with
  | none => simp [jsonMarshalPlacePtr] at hd
  | some place => simp [jsonMarshalPlacePtr, jsonMarshalPlace] at hd

/-- Claim C5, at the failing inputs: for the id `abc`, which does not parse, the
response is 400 but the body is the message line twice followed by `null`, and
the store was asked for id 0; for the id 7, which no row has, the body is the
message line followed by `null`. In every failing case the status is 400 and
the message line is followed by further bytes, because neither error branch of
`getPlace` returns. An id that parses and is found is answered 200 with the
JSON object of the row. -/
theorem getPlace_failure_body_has_trailing_output :
    getPlace testDB ResponseWriter.fresh (idRequest "GET" "abc")
      = ({ contentType := some "text/plain; charset=utf-8", code := some 400,
           declaredContentType := some "text/plain; charset=utf-8",
           body := "ID not found\nID not found\nnull" },
         { testDB with log := [Stmt.selectByID 0] }) ∧
    getPlace testDB ResponseWriter.fresh (idRequest "GET" "7")
      = ({ contentType := some "text/plain; charset=utf-8", code := some 400,
           declaredContentType := some "text/plain; charset=utf-8",
           body := "ID not found\nnull" },
         { testDB with log := [Stmt.selectByID 7] }) ∧
    (getPlace testDB ResponseWriter.fresh (idRequest "GET" "2")).1
      = { contentType := none, code := some 200, declaredContentType := none,
          body := "\x7b\"id\":2,\"name\":\"Place2\",\"address\":\"Address2\",\"description\":\"Description2\"\x7d" } ∧
    (∀ (db : DB) (r : Request),
      ((Atoi (r.PathValue "id")).2 ≠ none ∨
        (getPlaceDB db (Atoi (r.PathValue "id")).1).1.2 ≠ none) →
      (getPlace db ResponseWriter.fresh r).1.status = StatusBadRequest ∧
      ∃ tail, tail ≠ "" ∧
        (getPlace db ResponseWriter.fresh r).1.body = "ID not found" ++ "\n" ++ tail) ∧
    (∀ (db : DB) (r : Request) (id : Int) (place : Place),
      Atoi (r.PathValue "id") = (id, none) →
      (getPlaceDB db id).1 = (some place, none) →
      (getPlace db ResponseWriter.fresh r).1.status = StatusOK ∧
      (getPlace db ResponseWriter.fresh r).1.body = jsonMarshalPlace place) := by
  refine ⟨by decide, by decide, by decide, ?_, ?_⟩
  · intro db r hfail
    cases hp : (Atoi (r.PathValue "id")).2 with
    | some e =>
      cases hl : (getPlaceDB db (Atoi (r.PathValue "id")).1).1.2 with
      | some e2 =>
        refine ⟨by simp [getPlace, hp, hl, httpError, ResponseWriter.Write,
          ResponseWriter.WriteHeader, ResponseWriter.fresh, ResponseWriter.status], ?_⟩
        refine ⟨"ID not found" ++ "\n" ++
          jsonMarshalPlacePtr (getPlaceDB db (Atoi (r.PathValue "id")).1).1.1, ?_, ?_⟩
        · intro h
          have hd := congrArg String.data h
          simp at hd
        · simp [getPlace, hp, hl, httpError, ResponseWriter.Write,
            ResponseWriter.WriteHeader, ResponseWriter.fresh, String.append_assoc,
            empty_append_string]
          rw [← String.append_assoc]
          rfl
      | none =>
        refine ⟨by simp [getPlace, hp, hl, httpError, ResponseWriter.Write,
          ResponseWriter.WriteHeader, ResponseWriter.fresh, ResponseWriter.status], ?_⟩
        refine ⟨jsonMarshalPlacePtr (getPlaceDB db (Atoi (r.PathValue "id")).1).1.1,
          jsonMarshalPlacePtr_ne_empty _, ?_⟩
        simp [getPlace, hp, hl, httpError, ResponseWriter.Write,
          ResponseWriter.WriteHeader, ResponseWriter.fresh, String.append_assoc,
          empty_append_string]
    | none =>
      cases hl : (getPlaceDB db (Atoi (r.PathValue "id")).1).1.2 with
      | none => simp [hp, hl] at hfail
      | some e2 =>
        refine ⟨by simp [getPlace, hp, hl, httpError, ResponseWriter.Write,
          ResponseWriter.WriteHeader, ResponseWriter.fresh, ResponseWriter.status], ?_⟩
        refine ⟨jsonMarshalPlacePtr (getPlaceDB db (Atoi (r.PathValue "id")).1).1.1,
          jsonMarshalPlacePtr_ne_empty _, ?_⟩
        simp [getPlace, hp, hl, httpError, ResponseWriter.Write,
          ResponseWriter.WriteHeader, ResponseWriter.fresh, String.append_assoc,
          empty_append_string]
  · intro db r id place hp hl
    have hg : getPlace db ResponseWriter.fresh r
        = (ResponseWriter.fresh.Write (jsonMarshalPlace place), (getPlaceDB db id).2) := by
      simp [getPlace, hp, hl, jsonMarshalPlacePtr]
    rw [hg]
    have hw := fresh_Write (jsonMarshalPlace place)
    exact ⟨hw.1, hw.2⟩

/-! ## Routing -/

/-- Unescaping keeps a first byte that is not the percent sign. -/
theorem pathUnescape_cons (b : Nat) (bs : List Nat) (hb : b ≠ 37) :
    ∃ out, pathUnescape (b :: bs) = b :: out := by
  unfold pathUnescape
  rw [unescapeFrom, if_neg hb]
  cases unescapeFrom EscapeState.plain bs with
  | none => exact ⟨bs, rfl⟩
  | some out => exact ⟨out, rfl⟩

/-- The bytes of a path that starts with `/places`. -/
theorem goBytes_places (rest : String) :
    goBytes ("/places" ++ rest) = 47 :: 112 :: goBytes ("laces" ++ rest) := by
  simp [goBytes, String.data_append, utf8Encode]

/-- A pattern whose first segment is `v1` matches no path whose first segment
starts with `p`. -/
theorem matchPath_v1_ne (ps : List Segment) (tail : List Nat) :
    matchPath (Segment.lit "v1" :: ps) (47 :: 112 :: tail) = none := by
  obtain ⟨out, hout⟩ := pathUnescape_cons 112 (tail.takeWhile (fun b => b ≠ 47)) (by decide)
  have hfirst : (firstSegment (47 :: 112 :: tail)).1
      = pathUnescape (112 :: tail.takeWhile (fun b => b ≠ 47)) := by
    simp [firstSegment, List.takeWhile]
  have hseg : (firstSegment (47 :: 112 :: tail)).1 = 112 :: out := by
    rw [hfirst, hout]
  have hne : ¬ ((112 : Nat) :: out = goBytes "v1") := by
    have hv : goBytes "v1" = [118, 49] := by decide
    rw [hv]
    intro h
    exact absurd (List.cons.inj h).1 (by decide)
  simp [matchPath, hseg, hne]

/-- No registered pattern matches a path that starts with `/places`: such a request
is answered 404, or redirected when the path is not in cleaned form. -/
theorem dispatch_places_unmatched (method rest : String) :
    dispatch method ("/places" ++ rest) = Dispatch.notFound ∨
      dispatch method ("/places" ++ rest)
        = Dispatch.redirect (cleanPath (goBytes ("/places" ++ rest))) := by
  by_cases hclean : method ≠ "CONNECT" ∧
      cleanPath (goBytes ("/places" ++ rest)) ≠ goBytes ("/places" ++ rest)
  · right
    simp only [dispatch, dispatchIn]
    rw [if_pos hclean]
  · left
    simp only [dispatch, dispatchIn]
    rw [if_neg hclean, goBytes_places]
    simp [findRoute, routes, matchPath_v1_ne]

/-- The lookup on paths that are not in cleaned form or carry an escape: a doubled
slash is redirected to the cleaned path, an escaped slash inside the id segment
reaches `getPlace` with the decoded id, and a trailing slash matches nothing. -/
theorem dispatch_cleaning_and_escapes :
    dispatch "GET" "/v1//places" = Dispatch.redirect (goBytes "/v1/places") ∧
    dispatch "GET" "/v1/places/a%2Fb" = Dispatch.found Handler.getPlace [("id", goBytes "a/b")] ∧
    dispatch "GET" "/v1/places/" = Dispatch.notFound ∧
    dispatch "PATCH" "/v1/places" = Dispatch.methodNotAllowed := by
  decide

/-- Claim C8, at the failing input: the table built by `server.routes` holds the five
operations under the prefix `/v1`, so the five method and path pairs of the
HTTP surface are not in it. `GET /places`, the request of `TestGetPlacesAPI`,
matches no pattern and is answered 404 without reaching `getPlaces`; no method
on any path that starts with `/places` reaches a handler (the answer is 404, or
a redirect when the path is not in cleaned form). The same requests under `/v1`
reach their handlers. -/
theorem routes_places_paths_not_registered :
    dispatch "GET" "/places" = Dispatch.notFound ∧
    dispatch "GET" "/places/1" = Dispatch.notFound ∧
    dispatch "POST" "/places" = Dispatch.notFound ∧
    dispatch "PUT" "/places/1" = Dispatch.notFound ∧
    dispatch "DELETE" "/places/1" = Dispatch.notFound ∧
    ServeHTTP sampleUnmarshal testDB (sampleRequest "GET" "/places" "")
      = Served.response
          { contentType := some "text/plain; charset=utf-8", code := some 404,
            declaredContentType := some "text/plain; charset=utf-8",
            body := "404 page not found\n" } testDB ∧
    (∀ method rest : String,
      dispatch method ("/places" ++ rest) = Dispatch.notFound ∨
        dispatch method ("/places" ++ rest)
          = Dispatch.redirect (cleanPath (goBytes ("/places" ++ rest)))) ∧
    dispatch "GET" "/v1/places" = Dispatch.found Handler.getPlaces [] ∧
    dispatch "GET" "/v1/places/1" = Dispatch.found Handler.getPlace [("id", goBytes "1")] ∧
    dispatch "POST" "/v1/places" = Dispatch.found Handler.createPlace [] ∧
    dispatch "PUT" "/v1/places/1" = Dispatch.found Handler.updatePlace [("id", goBytes "1")] ∧
    dispatch "DELETE" "/v1/places/1"
      = Dispatch.found Handler.deletePlace [("id", goBytes "1")] := by
  refine ⟨by decide, by decide, by decide, by decide, by decide, by decide,
    dispatch_places_unmatched, by decide, by decide, by decide, by decide, by decide⟩

end PetPlaces
